import Mathlib

/-!
# Verification of the embassy-watchtower trace reconstruction engine

Shallow embedding of the core of `embassy-visor` (the trace reconstruction
engine): the time model (`tracing/time.rs`), the trace event model
(`tracing/trace_data.rs`), the task and executor state machines
(`tracing/task.rs`, `tracing/executor.rs`), the registry
(`tracing/instance.rs`) and the statistics aggregation
(`tracing/stats/task_stats.rs`, `ExecutorTraceInfo::calculate_cpu_utilization`).

Modelling conventions:
* Rust `Duration` values (`EmbassyTime`, `ComputerTime`) are modelled as `Nat`
  nanosecond counts.  `Duration::saturating_sub` is truncated `Nat`
  subtraction.  Plain `Duration` addition panics on overflow in Rust; where
  that matters (`EmbassyTime.addChecked`) the panic is modelled as `none`.
* `f32` second values in the statistics code are idealized as exact rationals
  (`ℚ`); durations enter via exact division by `10^9`.
* The ambient host clock (`ComputerTime::now()`, `diff_to_now`) is made an
  explicit `now : Nat` parameter of every query that reads it.
* The `rayon` parallel fold/reduce combinators compute a commutative,
  associative aggregation; they are modelled as sequential left folds.
* Name resolution (`FIRMWARE_ADDR_MAP`) is external I/O; records carry the
  resolved name as an `Option String` field which the model leaves at `none`.
* The runtime-adjustable window `HISTORY_MAX_TIME_S` (an atomic global) is
  threaded through as an explicit `windowS : Nat` parameter (seconds).
-/

namespace EmbassyWatchtower

/-! ## Time model (`tracing/time.rs`) -/

/-- `Duration::MAX` in nanoseconds: `u64::MAX` seconds plus `10^9 - 1` ns. -/
def durationMax : Nat := 18446744073709551615 * 1000000000 + 999999999

/-- `EmbassyTime::saturating_sub` (delegates to `Duration::saturating_sub`).
Device-side (`EmbassyTime`) and host-side (`ComputerTime`) clock values are
both plain nanosecond counts (`Nat`); the namespaces keep the Rust names. -/
def EmbassyTime.saturating_sub (a b : Nat) : Nat := a - b

/-- `impl Add for EmbassyTime` delegates to `Duration`'s `Add`, which is
`checked_add(..).expect("overflow when adding durations")`: the panic on
overflow is modelled as `none`. -/
def EmbassyTime.addChecked (a b : Nat) : Option Nat :=
  if a + b ≤ durationMax then some (a + b) else none

/-- `EmbassyTime::from_micros`. -/
def EmbassyTime.from_micros (us : Nat) : Nat := us * 1000

/-- `ComputerTime::from_s`. -/
def ComputerTime.from_s (secs : Nat) : Nat := secs * 1000000000

/-- `ComputerTime::saturating_sub`. -/
def ComputerTime.saturating_sub (a b : Nat) : Nat := a - b

/-- `ComputerTime::diff_to_now`, with the ambient clock explicit. -/
def ComputerTime.diff_to_now (t : Nat) (now : Nat) : Nat := now - t

/-- `TimePair`: device timestamp (`uc`) and host timestamp (`pc`) captured
together for one event. -/
structure TimePair where
  uc : Nat
  pc : Nat
deriving DecidableEq

/-! ## Trace event model (`tracing/trace_data.rs`) -/

inductive TraceParseError where
  | InvalidTimestamp
  | InvalidCoreId
  | InvalidExecutorId
  | InvalidFormat
  | InvalidTaskId
  | InvalidEventType
  | InvalidEventPayload
deriving DecidableEq

inductive TraceItemType where
  | ExecutorIdle (executor_id : Nat)
  | ExecutorPollStart (executor_id : Nat)
  | TaskNew (executor_id task_id : Nat)
  | TaskEnd (executor_id task_id : Nat)
  | TaskExecBegin (executor_id task_id : Nat)
  | TaskExecEnd (executor_id task_id : Nat)
  | TaskReadyBegin (executor_id task_id : Nat)
deriving DecidableEq

def TraceItemType.get_executor_id : TraceItemType → Nat
  | .ExecutorIdle executor_id => executor_id
  | .ExecutorPollStart executor_id => executor_id
  | .TaskNew executor_id _ => executor_id
  | .TaskEnd executor_id _ => executor_id
  | .TaskExecBegin executor_id _ => executor_id
  | .TaskExecEnd executor_id _ => executor_id
  | .TaskReadyBegin executor_id _ => executor_id

def TraceItemType.get_task_id : TraceItemType → Option Nat
  | .TaskNew _ task_id => some task_id
  | .TaskEnd _ task_id => some task_id
  | .TaskExecBegin _ task_id => some task_id
  | .TaskExecEnd _ task_id => some task_id
  | .TaskReadyBegin _ task_id => some task_id
  | _ => none

structure TraceItem where
  time_pair : TimePair
  core_id : Nat
  data : TraceItemType
deriving DecidableEq

/-! ## Task state machine (`tracing/task.rs`) -/

inductive TaskTraceState where
  | Spawned
  | Waiting
  | Running
  | Preempted (by_executor_id : Nat)
  | Idle
  | Ended
deriving DecidableEq

structure TaskHistoryEntry where
  state : TaskTraceState
  start_time : TimePair
  end_time : TimePair
deriving DecidableEq

/-- `TaskHistoryEntry::get_uc_duration`. -/
def TaskHistoryEntry.get_uc_duration (e : TaskHistoryEntry) : Nat :=
  EmbassyTime.saturating_sub e.end_time.uc e.start_time.uc

structure TaskTraceInfo where
  task_id : Nat
  task_name : Option String
  executor_id : Nat
  core_id : Nat
  created_at : TimePair
  state : TaskTraceState
  state_start_time : TimePair
  state_history : List TaskHistoryEntry
deriving DecidableEq

/-- `TaskTraceInfo::new`.  The firmware-address-map name lookup is external
I/O; the model records no resolved name. -/
def TaskTraceInfo.new (task_id executor_id core_id : Nat) (created_at : TimePair) :
    TaskTraceInfo :=
  { task_id := task_id
    task_name := none
    executor_id := executor_id
    core_id := core_id
    created_at := created_at
    state := TaskTraceState.Spawned
    state_start_time := created_at
    state_history := [] }

/-- `TaskTraceInfo::set_new_state`: on an actual change, append the just-ended
state to history and reset `state_start_time`. -/
def TaskTraceInfo.set_new_state (t : TaskTraceInfo) (new_state : TaskTraceState)
    (timestamp : TimePair) : TaskTraceInfo :=
  if t.state = new_state then t
  else
    { t with
      state := new_state
      state_start_time := timestamp
      state_history :=
        t.state_history ++ [⟨t.state, t.state_start_time, timestamp⟩] }

/-- The front-eviction loop shared by `TaskTraceInfo::update` and
`ExecutorTraceInfo::update`: pop entries from the front while the current host
time minus the entry's end host time (saturating) exceeds the window, stopping
at the first entry that is recent enough. -/
def dropOldHistory {α : Type} (endPc : α → Nat) (maxTime cur : Nat) :
    List α → List α
  | [] => []
  | f :: rest =>
    if cur - endPc f > maxTime then dropOldHistory endPc maxTime cur rest
    else f :: rest

/-- The ordinary transition table of `TaskTraceInfo::update` (the `match
self.state` block), reached only for events carrying this task's own ids. -/
def TaskTraceInfo.taskTableStep (t : TaskTraceInfo) (e : TraceItem) : TaskTraceInfo :=
  match t.state with
  | .Spawned =>
    match e.data with
    | .TaskReadyBegin _ _ => t.set_new_state .Waiting e.time_pair
    | _ => t
  | .Waiting =>
    match e.data with
    | .TaskExecBegin _ _ => t.set_new_state .Running e.time_pair
    | _ => t
  | .Running =>
    match e.data with
    | .TaskExecEnd _ _ => t.set_new_state .Idle e.time_pair
    | .TaskReadyBegin _ _ => t.set_new_state .Waiting e.time_pair
    | .TaskEnd _ _ => t.set_new_state .Ended e.time_pair
    | _ => t
  | .Idle =>
    match e.data with
    | .TaskReadyBegin _ _ => t.set_new_state .Waiting e.time_pair
    | _ => t
  | .Ended => t
  | .Preempted _ => t

/-- The tail of `TaskTraceInfo::update` after the two preemption checks:
filter by executor id and task id, run the transition table, then evict old
history entries. -/
def TaskTraceInfo.updateRest (windowS : Nat) (t : TaskTraceInfo) (e : TraceItem) :
    TaskTraceInfo :=
  if e.data.get_executor_id ≠ t.executor_id then t
  else
    match e.data.get_task_id with
    | some tid =>
      if tid = t.task_id then
        let t1 := t.taskTableStep e
        { t1 with
          state_history :=
            dropOldHistory (fun en => en.end_time.pc) (ComputerTime.from_s windowS)
              e.time_pair.pc t1.state_history }
      else t
    | none => t

/-- `TaskTraceInfo::update`: cross-executor preemption and resumption are
checked first (with early return); all other events go through the
executor-id/task-id filters into the ordinary table. -/
def TaskTraceInfo.update (windowS : Nat) (t : TaskTraceInfo) (e : TraceItem) :
    TaskTraceInfo :=
  match t.state, e.data with
  | .Running, .ExecutorPollStart eid =>
    if e.core_id = t.core_id ∧ eid ≠ t.executor_id then
      t.set_new_state (.Preempted eid) e.time_pair
    else t.updateRest windowS e
  | .Preempted byid, .ExecutorIdle eid =>
    if eid = byid then t.set_new_state .Running e.time_pair
    else t.updateRest windowS e
  | _, _ => t.updateRest windowS e

/-! ## Executor state machine (`tracing/executor.rs`) -/

inductive PreemptedPrevState where
  | Scheduling
  | Polling
deriving DecidableEq

inductive ExecutorState where
  | Idle
  | Scheduling
  | Preempted (by_executor_id : Nat) (prev_state : PreemptedPrevState)
  | Polling
deriving DecidableEq

/-- `impl Into<ExecutorState> for PreemptedPrevState`. -/
def PreemptedPrevState.toState : PreemptedPrevState → ExecutorState
  | .Scheduling => .Scheduling
  | .Polling => .Polling

structure ExecutorHistoryEntry where
  state : ExecutorState
  start_time : TimePair
  end_time : TimePair
deriving DecidableEq

structure ExecutorTraceInfo where
  executor_id : Nat
  executor_name : Option String
  core_id : Nat
  created_at : TimePair
  state : ExecutorState
  state_start_time : TimePair
  state_history : List ExecutorHistoryEntry
  tasks : List TaskTraceInfo
deriving DecidableEq

/-- `ExecutorTraceInfo::new` (name resolution external, as for tasks). -/
def ExecutorTraceInfo.new (executor_id core_id : Nat) (created_at : TimePair) :
    ExecutorTraceInfo :=
  { executor_id := executor_id
    executor_name := none
    core_id := core_id
    created_at := created_at
    state := ExecutorState.Idle
    state_start_time := created_at
    state_history := []
    tasks := [] }

/-- `ExecutorTraceInfo::set_new_state`. -/
def ExecutorTraceInfo.set_new_state (ex : ExecutorTraceInfo) (new_state : ExecutorState)
    (timestamp : TimePair) : ExecutorTraceInfo :=
  if ex.state = new_state then ex
  else
    { ex with
      state := new_state
      state_start_time := timestamp
      state_history :=
        ex.state_history ++ [⟨ex.state, ex.state_start_time, timestamp⟩] }

/-- The preemption check at the head of `ExecutorTraceInfo::update_tasks`:
while active, a poll start of a foreign executor on this core preempts; while
preempted, an idle of the preempting executor resumes the remembered state. -/
def ExecutorTraceInfo.preemptStep (ex : ExecutorTraceInfo) (e : TraceItem) :
    ExecutorTraceInfo :=
  match ex.state, e.data with
  | .Polling, .ExecutorPollStart eid =>
    if eid ≠ ex.executor_id ∧ e.core_id = ex.core_id then
      ex.set_new_state (.Preempted eid .Polling) e.time_pair
    else ex
  | .Scheduling, .ExecutorPollStart eid =>
    if eid ≠ ex.executor_id ∧ e.core_id = ex.core_id then
      ex.set_new_state (.Preempted eid .Scheduling) e.time_pair
    else ex
  | .Preempted byid prev, .ExecutorIdle eid =>
    if eid = byid then ex.set_new_state prev.toState e.time_pair else ex
  | _, _ => ex

/-- `ExecutorTraceInfo::update_tasks`: preemption check, defensive task
creation for own task-carrying events, then forward the event to every owned
task. -/
def ExecutorTraceInfo.update_tasks (windowS : Nat) (ex : ExecutorTraceInfo)
    (e : TraceItem) : ExecutorTraceInfo :=
  let ex1 := ex.preemptStep e
  let ex2 :=
    if e.data.get_executor_id = ex1.executor_id then
      match e.data.get_task_id with
      | some tid =>
        if (ex1.tasks.find? (fun t => t.task_id = tid)).isNone then
          { ex1 with
            tasks :=
              ex1.tasks ++ [TaskTraceInfo.new tid ex1.executor_id ex1.core_id e.time_pair] }
        else ex1
      | none => ex1
    else ex1
  { ex2 with tasks := ex2.tasks.map (fun t => t.update windowS e) }

/-- The executor's own transition table in `ExecutorTraceInfo::update`
(`Preempted` falls into the wildcard arm and does not transition here). -/
def ExecutorTraceInfo.execTableStep (ex : ExecutorTraceInfo) (e : TraceItem) :
    ExecutorTraceInfo :=
  match ex.state with
  | .Idle =>
    match e.data with
    | .ExecutorPollStart _ => ex.set_new_state .Scheduling e.time_pair
    | _ => ex
  | .Scheduling =>
    match e.data with
    | .TaskExecBegin _ _ => ex.set_new_state .Polling e.time_pair
    | .ExecutorIdle _ => ex.set_new_state .Idle e.time_pair
    | _ => ex
  | .Polling =>
    match e.data with
    | .TaskExecEnd _ _ => ex.set_new_state .Scheduling e.time_pair
    | _ => ex
  | .Preempted _ _ => ex

/-- `ExecutorTraceInfo::update`: update tasks first, then — only for events
referencing this executor — run the own transition table and evict old
history entries. -/
def ExecutorTraceInfo.update (windowS : Nat) (ex : ExecutorTraceInfo)
    (e : TraceItem) : ExecutorTraceInfo :=
  let ex1 := ex.update_tasks windowS e
  if e.data.get_executor_id = ex1.executor_id then
    let ex2 := ex1.execTableStep e
    { ex2 with
      state_history :=
        dropOldHistory (fun en => en.end_time.pc) (ComputerTime.from_s windowS)
          e.time_pair.pc ex2.state_history }
  else ex1

/-! ## Tracing registry (`tracing/instance.rs`) -/

/-- The registry's executor collection (the mutex around it is a concurrency
artifact outside the sequential model). -/
abbrev TracingInstance := List ExecutorTraceInfo

/-- `TracingInstance::update`: create an executor record for an unseen
executor id, then forward the event to every tracked executor. -/
def TracingInstance.update (windowS : Nat) (executors : TracingInstance)
    (e : TraceItem) : TracingInstance :=
  let executors :=
    if (executors.find? (fun ex => ex.executor_id = e.data.get_executor_id)).isNone then
      executors ++ [ExecutorTraceInfo.new e.data.get_executor_id e.core_id e.time_pair]
    else executors
  executors.map (fun ex => ex.update windowS e)

/-! ## Trace line parsing (`tracing/trace_data.rs`)

Lines are modelled as `List Char`.  Rust's byte indices returned by
`str::find` for the ASCII brackets order the same way as character indices,
so the slice-panic condition `start > end` transfers directly. -/

/-- `str::trim` (Unicode whitespace on both ends). -/
def trimChars (l : List Char) : List Char :=
  ((l.dropWhile Char.isWhitespace).reverse.dropWhile Char.isWhitespace).reverse

/-- `str::split(',')`: splitting the empty string yields one empty field. -/
def splitOnComma : List Char → List (List Char)
  | [] => [[]]
  | c :: rest =>
    let r := splitOnComma rest
    if c = ',' then [] :: r
    else
      match r with
      | [] => [[c]]
      | h :: tl => (c :: h) :: tl

def charDigit? (c : Char) : Option Nat :=
  if '0' ≤ c ∧ c ≤ '9' then some (c.toNat - '0'.toNat) else none

def parseNatDigits : List Char → Option Nat
  | [] => none
  | l =>
    l.foldl
      (fun acc c =>
        match acc, charDigit? c with
        | some v, some d => some (v * 10 + d)
        | _, _ => none)
      (some 0)

/-- Rust `u64::from_str` / `u32::from_str`: an optional leading `+`, then one
or more ASCII digits, rejecting values above the type's maximum. -/
def parseUInt (bound : Nat) (l : List Char) : Option Nat :=
  let l := match l with
    | '+' :: rest => rest
    | _ => l
  match parseNatDigits l with
  | some v => if v ≤ bound then some v else none
  | none => none

def u32Max : Nat := 4294967295

def u64Max : Nat := 18446744073709551615

def parseU64 (l : List Char) : Option Nat := parseUInt u64Max l

def parseU32 (l : List Char) : Option Nat := parseUInt u32Max l

/-- `TraceItemType::from_parts`: `executor_id` is parsed first, then a third
field (when present) is parsed as the task id, then the event name is
matched; the task-requiring events fail with `InvalidEventPayload` when no
third field was present. -/
def TraceItemType.from_parts (parts : List (List Char)) :
    Except TraceParseError TraceItemType :=
  if parts.length < 2 then .error .InvalidFormat
  else
    let event_type := trimChars (parts.getD 0 [])
    match parseU32 (trimChars (parts.getD 1 [])) with
    | none => .error .InvalidExecutorId
    | some executor_id =>
      let tidRes : Except TraceParseError (Option Nat) :=
        if parts.length > 2 then
          match parseU32 (trimChars (parts.getD 2 [])) with
          | some t => .ok (some t)
          | none => .error .InvalidTaskId
        else .ok none
      match tidRes with
      | .error er => .error er
      | .ok task_id =>
        if event_type = "ExecutorIdle".toList then .ok (.ExecutorIdle executor_id)
        else if event_type = "ExecutorPollStart".toList then
          .ok (.ExecutorPollStart executor_id)
        else if event_type = "TaskNew".toList then
          match task_id with
          | some tid => .ok (.TaskNew executor_id tid)
          | none => .error .InvalidEventPayload
        else if event_type = "TaskEnd".toList then
          match task_id with
          | some tid => .ok (.TaskEnd executor_id tid)
          | none => .error .InvalidEventPayload
        else if event_type = "TaskExecBegin".toList then
          match task_id with
          | some tid => .ok (.TaskExecBegin executor_id tid)
          | none => .error .InvalidEventPayload
        else if event_type = "TaskExecEnd".toList then
          match task_id with
          | some tid => .ok (.TaskExecEnd executor_id tid)
          | none => .error .InvalidEventPayload
        else if event_type = "TaskReadyBegin".toList then
          match task_id with
          | some tid => .ok (.TaskReadyBegin executor_id tid)
          | none => .error .InvalidEventPayload
        else .error .InvalidEventType

/-- Outcome of `TraceItem::parse_from_line` including the abnormal
termination the function can actually reach. -/
inductive ParseOutcome where
  | ok (item : TraceItem)
  | error (e : TraceParseError)
  | panicked
deriving DecidableEq

/-- `TraceItem::parse_from_line`.  Rust takes `&line[start..end]` with
`start = find('[') + 1` and `end = find(']')`; when the first `]` precedes
the first `[`, `start > end` and the byte-slice operation panics — modelled
as `ParseOutcome.panicked`. -/
def TraceItem.parse_from_line (line : List Char) (pc_timestamp : Nat) :
    ParseOutcome :=
  match line.findIdx? (fun c => c = '['), line.findIdx? (fun c => c = ']') with
  | none, _ => .error .InvalidFormat
  | some _, none => .error .InvalidFormat
  | some i, some j =>
    if j < i + 1 then .panicked
    else
      let content := (line.take j).drop (i + 1)
      let parts := (splitOnComma content).map trimChars
      if parts.length < 4 then .error .InvalidFormat
      else
        match parseU64 (parts.getD 0 []) with
        | none => .error .InvalidTimestamp
        | some timestamp_micros =>
          match parseU32 (parts.getD 1 []) with
          | none => .error .InvalidCoreId
          | some core_id =>
            match TraceItemType.from_parts (parts.drop 2) with
            | .error er => .error er
            | .ok data =>
              .ok ⟨⟨EmbassyTime.from_micros timestamp_micros, pc_timestamp⟩, core_id, data⟩

/-! ## Derived queries and statistics (`tracing/task.rs`,
`tracing/executor.rs`, `tracing/stats/task_stats.rs`) -/

/-- A nanosecond count as exact seconds (`as_secs_f32` idealized in `ℚ`). -/
def asSecsQ (n : Nat) : ℚ := (n : ℚ) / 1000000000

/-- `TaskTraceInfo::extrapolate_current_state_duration` (estimated current
device time): project the device clock forward by the elapsed host time. -/
def TaskTraceInfo.extrapolate_current_state_duration (t : TaskTraceInfo)
    (now : Nat) : Nat :=
  t.state_start_time.uc + ComputerTime.diff_to_now t.state_start_time.pc now

/-- `TaskTraceInfo::calc_current_state_duration`. -/
def TaskTraceInfo.calc_current_state_duration (t : TaskTraceInfo) (now : Nat) :
    Nat :=
  EmbassyTime.saturating_sub (t.extrapolate_current_state_duration now)
    t.state_start_time.uc

/-- `TaskTraceInfo::calc_total_history_duration`. -/
def TaskTraceInfo.calc_total_history_duration (t : TaskTraceInfo) (now : Nat) :
    Nat :=
  let start_time_uc :=
    match t.state_history.head? with
    | some entry => entry.start_time.uc
    | none => 0
  EmbassyTime.saturating_sub (t.extrapolate_current_state_duration now) start_time_uc

/-- `TaskTraceInfo::calc_total_history_state_duration`. -/
def TaskTraceInfo.calc_total_history_state_duration (t : TaskTraceInfo)
    (state : TaskTraceState) (now : Nat) : Nat :=
  (((t.state_history.filter (fun en => en.state = state)).map
      TaskHistoryEntry.get_uc_duration).sum) +
    (if t.state = state then t.calc_current_state_duration now else 0)

/-- The accumulator of `calc_min_mean_max_count_waiting_time`'s fold. -/
structure WaitingFoldStats where
  min : Nat
  max : Nat
  sum : Nat
  count : Nat
deriving DecidableEq

/-- One fold step over a completed waiting duration. -/
def waitingFoldStep (acc : WaitingFoldStats) (d : Nat) : WaitingFoldStats :=
  { min := Nat.min acc.min d
    max := Nat.max acc.max d
    sum := acc.sum + d
    count := acc.count + 1 }

/-- `TaskTraceInfo::calc_min_mean_max_count_waiting_time`: fold the completed
`Waiting` durations (the fold starts from `min = Duration::MAX`,
`max = sum = count = 0`); an ongoing waiting duration joins `sum`/`count`
only when it exceeds the observed minimum, and raises `max` when it exceeds
the observed maximum; the mean is `sum / count` (nanosecond floor). -/
def TaskTraceInfo.calc_min_mean_max_count_waiting_time (t : TaskTraceInfo)
    (now : Nat) : Option (Nat × Nat × Nat × Nat) :=
  let stats :=
    ((t.state_history.filter (fun en => en.state = .Waiting)).map
        TaskHistoryEntry.get_uc_duration).foldl waitingFoldStep
      ⟨durationMax, 0, 0, 0⟩
  let stats :=
    if t.state = .Waiting then
      let current_duration := t.calc_current_state_duration now
      let stats :=
        if current_duration > stats.min then
          { stats with sum := stats.sum + current_duration, count := stats.count + 1 }
        else stats
      if current_duration > stats.max then { stats with max := current_duration }
      else stats
    else stats
  if stats.count = 0 then none
  else some (stats.min, stats.sum / stats.count, stats.max, stats.count)

/-- `TaskStats` (the display-name field is external string formatting and is
omitted). -/
structure TaskStats where
  cpu_utilization_percent : ℚ
  min_waiting_time : Nat
  max_waiting_time : Nat
  avg_waiting_time : Nat
  count_waiting_time : Nat
deriving DecidableEq

/-- `TaskStats::from_task`: utilization is `Running` time over total tracked
time as a percentage, forced to `0.0` when the total is below one
millisecond; missing waiting statistics default to zeroes
(`unwrap_or_default`). -/
def TaskStats.from_task (t : TaskTraceInfo) (now : Nat) : TaskStats :=
  let total_time := t.calc_total_history_duration now
  let running_time := t.calc_total_history_state_duration .Running now
  let cpu_utilization_percent : ℚ :=
    if total_time / 1000000 > 0 then
      asSecsQ running_time / asSecsQ total_time * 100
    else 0
  match t.calc_min_mean_max_count_waiting_time now with
  | some (mn, avg, mx, cnt) =>
    { cpu_utilization_percent := cpu_utilization_percent
      min_waiting_time := mn
      max_waiting_time := mx
      avg_waiting_time := avg
      count_waiting_time := cnt }
  | none =>
    { cpu_utilization_percent := cpu_utilization_percent
      min_waiting_time := 0
      max_waiting_time := 0
      avg_waiting_time := 0
      count_waiting_time := 0 }

/-- `Scheduling` and `Polling` count as active in
`ExecutorTraceInfo::calculate_cpu_utilization`. -/
def ExecutorState.isActive : ExecutorState → Bool
  | .Scheduling => true
  | .Polling => true
  | _ => false

/-- Host-time duration of one executor history entry (saturating). -/
def ExecutorHistoryEntry.pc_duration (en : ExecutorHistoryEntry) : Nat :=
  ComputerTime.saturating_sub en.end_time.pc en.start_time.pc

/-- `ExecutorTraceInfo::extrapolate_current_state_duration`. -/
def ExecutorTraceInfo.extrapolate_current_state_duration (ex : ExecutorTraceInfo)
    (now : Nat) : Nat :=
  ex.state_start_time.uc + ComputerTime.diff_to_now ex.state_start_time.pc now

/-- The extrapolated duration of the executor's current state. -/
def ExecutorTraceInfo.current_estimated_duration (ex : ExecutorTraceInfo)
    (now : Nat) : Nat :=
  EmbassyTime.saturating_sub (ex.extrapolate_current_state_duration now)
    ex.state_start_time.uc

/-- The `total_time_s` accumulated by
`ExecutorTraceInfo::calculate_cpu_utilization`: every history entry's
host-time duration plus the extrapolated current-state duration. -/
def ExecutorTraceInfo.total_tracked_secs (ex : ExecutorTraceInfo) (now : Nat) : ℚ :=
  ((ex.state_history.map (fun en => asSecsQ en.pc_duration)).sum) +
    asSecsQ (ex.current_estimated_duration now)

/-- The `active_time_s` accumulated by the same loop: only `Scheduling` and
`Polling` entries, plus the current-state duration when currently active. -/
def ExecutorTraceInfo.active_tracked_secs (ex : ExecutorTraceInfo) (now : Nat) : ℚ :=
  (((ex.state_history.filter (fun en => en.state.isActive)).map
      (fun en => asSecsQ en.pc_duration)).sum) +
    (if ex.state.isActive then asSecsQ (ex.current_estimated_duration now) else 0)

/-- `ExecutorTraceInfo::calculate_cpu_utilization`. -/
def ExecutorTraceInfo.calculate_cpu_utilization (ex : ExecutorTraceInfo)
    (now : Nat) : ℚ :=
  if ex.total_tracked_secs now > 0 then
    ex.active_tracked_secs now / ex.total_tracked_secs now * 100
  else 0

/-! ## History invariants -/

/-- The most recent history entry (when one exists) ends exactly at
`state_start_time`. -/
def TaskLastInv (t : TaskTraceInfo) : Prop :=
  ∀ en, t.state_history.getLast? = some en → t.state_start_time = en.end_time

/-- Reachable-history invariant for a task record: consecutive history
entries are contiguous (each starts where the previous one ended), every
entry's device time is non-decreasing within the entry, and the most recent
entry ends at `state_start_time`. -/
def TaskHistInv (t : TaskTraceInfo) : Prop :=
  t.state_history.Chain' (fun a b => b.start_time = a.end_time) ∧
  (∀ en ∈ t.state_history, en.start_time.uc ≤ en.end_time.uc) ∧
  TaskLastInv t

/-- A task record reachable from a fresh record by an event sequence. -/
def reachTask (task_id executor_id core_id : Nat) (created_at : TimePair)
    (windowS : Nat) (events : List TraceItem) : TaskTraceInfo :=
  events.foldl (TaskTraceInfo.update windowS)
    (TaskTraceInfo.new task_id executor_id core_id created_at)

/-! ## Concrete scenarios used by the individual claims -/

/-- An event on core 0 with the given device/host timestamps. -/
def mkEvent (uc pc : Nat) (data : TraceItemType) : TraceItem := ⟨⟨uc, pc⟩, 0, data⟩

/-- The §8 scenario: `TaskNew`, `TaskReadyBegin`, `TaskExecBegin`,
`TaskExecEnd` for executor 1 / task 42 with strictly increasing device
timestamps. -/
def c1Events : List TraceItem :=
  [ mkEvent 10000 1000 (.TaskNew 1 42),
    mkEvent 20000 2000 (.TaskReadyBegin 1 42),
    mkEvent 30000 3000 (.TaskExecBegin 1 42),
    mkEvent 40000 4000 (.TaskExecEnd 1 42) ]

/-- The registry after the first `n` events of the §8 scenario. -/
def c1Registry (n : Nat) : TracingInstance :=
  (c1Events.take n).foldl (TracingInstance.update 30) []

/-- A fresh task for executor 1 on core 0 after one accepted transition at
host time 1 s and one ignored event at host time 100 s (which drains the
whole history with the default 30 s window). -/
def c3Task : TaskTraceInfo :=
  [ mkEvent 1000 1000000000 (.TaskReadyBegin 1 42),
    mkEvent 2000 100000000000 (.TaskReadyBegin 1 42) ].foldl
    (TaskTraceInfo.update 30) (TaskTraceInfo.new 42 1 0 ⟨0, 0⟩)

/-- One event applied to a fresh task: the single accepted transition leaves
one history entry ending at host time 1 s. -/
def c3WitnessTask : TaskTraceInfo :=
  [mkEvent 1000 1000000000 (.TaskReadyBegin 1 42)].foldl
    (TaskTraceInfo.update 30) (TaskTraceInfo.new 42 1 0 ⟨0, 0⟩)

/-- Executor 1 / task 42 build up one history entry ending at host time 1 s;
the final event (host time 100 s) belongs to executor 2 only. -/
def c4Registry : TracingInstance :=
  [ mkEvent 1000 0 (.TaskNew 1 42),
    mkEvent 2000 1000000000 (.TaskReadyBegin 1 42),
    mkEvent 3000 100000000000 (.TaskNew 2 7) ].foldl (TracingInstance.update 30) []

/-- A task with one recent history entry, for the C4 witness. -/
def c4WitnessTask : TaskTraceInfo :=
  { task_id := 42, task_name := none, executor_id := 1, core_id := 0,
    created_at := ⟨0, 0⟩, state := .Idle, state_start_time := ⟨5, 5⟩,
    state_history := [⟨.Spawned, ⟨0, 0⟩, ⟨5, 5⟩⟩] }

def c4WitnessEvent : TraceItem := mkEvent 100 10 (.TaskReadyBegin 1 42)

def c4WitnessEntry : TaskHistoryEntry := ⟨.Spawned, ⟨0, 0⟩, ⟨5, 5⟩⟩

/-- Executor A (id 1) on core 0, currently `Polling`. -/
def c5Executor : ExecutorTraceInfo :=
  { executor_id := 1, executor_name := none, core_id := 0, created_at := ⟨0, 0⟩,
    state := .Polling, state_start_time := ⟨0, 0⟩, state_history := [], tasks := [] }

/-- A task history holding exactly three completed `Waiting` intervals of
5 ms, 10 ms and 20 ms (device time), interleaved with non-`Waiting` entries. -/
def c6History : List TaskHistoryEntry :=
  [ ⟨.Waiting, ⟨0, 0⟩, ⟨5000000, 5000000⟩⟩,
    ⟨.Running, ⟨5000000, 5000000⟩, ⟨6000000, 6000000⟩⟩,
    ⟨.Waiting, ⟨10000000, 10000000⟩, ⟨20000000, 20000000⟩⟩,
    ⟨.Idle, ⟨20000000, 20000000⟩, ⟨30000000, 30000000⟩⟩,
    ⟨.Waiting, ⟨30000000, 30000000⟩, ⟨50000000, 50000000⟩⟩ ]

/-- A task over `c6History` that is not currently waiting. -/
def c6TaskIdle : TaskTraceInfo :=
  { task_id := 42, task_name := none, executor_id := 1, core_id := 0,
    created_at := ⟨0, 0⟩, state := .Idle, state_start_time := ⟨0, 0⟩,
    state_history := c6History }

/-- The same task currently `Waiting`, with `state_start_time` at host time 0
so that an ongoing waiting duration of `d` corresponds to `now = d`. -/
def c6TaskWaiting : TaskTraceInfo := { c6TaskIdle with state := .Waiting }

/-- An arbitrary executor record for the C7 witness. -/
def c7Executor : ExecutorTraceInfo := ExecutorTraceInfo.new 1 0 ⟨0, 0⟩

/-- A task that is currently `Waiting` with no completed `Waiting` interval
in its history. -/
def c10Task : TaskTraceInfo :=
  { task_id := 42, task_name := none, executor_id := 1, core_id := 0,
    created_at := ⟨0, 0⟩, state := .Waiting, state_start_time := ⟨0, 0⟩,
    state_history := [⟨.Spawned, ⟨0, 0⟩, ⟨0, 0⟩⟩] }

/-! ## Theorems -/

/-- **C1** (counterexample).  The claim asserts that the executor's state
after the second event of the §8 scenario is `Scheduling`; in the code the
executor leaves `Idle` only on an `ExecutorPollStart` event, which the
scenario never contains, so after `TaskReadyBegin` it is still `Idle`. -/
theorem c1_counterexample :
    (c1Registry 2).map (fun ex => ex.state) = [ExecutorState.Idle] ∧
    ExecutorState.Idle ≠ ExecutorState.Scheduling := by
  decide

/-- **C1** (amended).  For the event sequence `TaskNew`, `TaskReadyBegin`,
`TaskExecBegin`, `TaskExecEnd` (executor 1, task 42, strictly increasing
device timestamps, fresh registry) the task's state sequence is `Spawned`,
`Waiting`, `Running`, `Idle` as claimed, but the executor remains `Idle`
throughout: its `Idle → Scheduling` transition fires only on
`ExecutorPollStart`, and `Scheduling → Polling → Scheduling` only from those
states. -/
theorem c1_amended :
    ((List.range 4).map fun n => (c1Registry (n + 1)).map (fun ex => ex.state)) =
      [[.Idle], [.Idle], [.Idle], [.Idle]] ∧
    ((List.range 4).map fun n =>
        (c1Registry (n + 1)).map (fun ex => ex.tasks.map (fun t => t.state))) =
      [[[.Spawned]], [[.Waiting]], [[.Running]], [[.Idle]]] := by
  decide

/-- **C2** (code bug).  `TraceItem::parse_from_line` slices
`&line[start..end]` with `start = find('[') + 1` and `end = find(']')`; on
the input `"]["` the first `]` precedes the first `[`, so `start = 2 > 0 =
end` and the byte-slice operation panics instead of returning a parse error.
Lines whose defects match the documented error kinds are still rejected with
those kinds (two examples included). -/
theorem c2_parse_panics :
    TraceItem.parse_from_line "][".toList 0 = ParseOutcome.panicked ∧
    TraceItem.parse_from_line "not a trace line".toList 0 =
      ParseOutcome.error .InvalidFormat ∧
    TraceItem.parse_from_line "[123456, 17, TaskNew, 1, bad]".toList 0 =
      ParseOutcome.error .InvalidTaskId := by
  decide

/-- **C6**.  Over a history with exactly three completed `Waiting` intervals
of 5 ms, 10 ms and 20 ms: the statistics are `min = 5 ms`, `max = 20 ms`,
`mean = 35 ms / 3` (floored to nanoseconds: `11666666 ns ≈ 11.67 ms`) and
`count = 3`; an ongoing waiting duration (2 ms, or exactly 5 ms) not
exceeding the observed minimum changes nothing, an ongoing 7 ms > min joins
`count`/`mean` only, and an ongoing 50 ms > max also raises `max`. -/
theorem c6_waiting_time_statistics :
    c6TaskIdle.calc_min_mean_max_count_waiting_time 999 =
      some (5000000, 11666666, 20000000, 3) ∧
    c6TaskWaiting.calc_min_mean_max_count_waiting_time 2000000 =
      some (5000000, 11666666, 20000000, 3) ∧
    c6TaskWaiting.calc_min_mean_max_count_waiting_time 5000000 =
      some (5000000, 11666666, 20000000, 3) ∧
    c6TaskWaiting.calc_min_mean_max_count_waiting_time 7000000 =
      some (5000000, 10500000, 20000000, 4) ∧
    c6TaskWaiting.calc_min_mean_max_count_waiting_time 50000000 =
      some (5000000, 21250000, 50000000, 4) := by
  decide

/-- **C9** (counterexample).  Device-time addition is Rust's plain `Duration`
addition, which panics on overflow: both operands `Duration::MAX` are
representable, yet their sum is not, so the addition does not stay free of
panics on every pair of representable operands. -/
theorem c9_counterexample :
    EmbassyTime.addChecked durationMax durationMax = none := by
  simp [EmbassyTime.addChecked, durationMax]

/-- **C9** (amended).  For representable device-time values: saturating
subtraction returns `a - b` when `a ≥ b` and zero otherwise, and addition is
exact (never panics) precisely when the mathematical sum is itself
representable as a `Duration`; it panics when the sum overflows. -/
theorem c9_saturating_arithmetic (a b : Nat) (ha : a ≤ durationMax)
    (hb : b ≤ durationMax) :
    (EmbassyTime.saturating_sub a b = if b ≤ a then a - b else 0) ∧
    (a + b ≤ durationMax → EmbassyTime.addChecked a b = some (a + b)) ∧
    (durationMax < a + b → EmbassyTime.addChecked a b = none) := by
  refine ⟨?_, fun h => ?_, fun h => ?_⟩
  · show a - b = if b ≤ a then a - b else 0
    split <;> omega
  · show (if a + b ≤ durationMax then some (a + b) else none) = some (a + b)
    rw [if_pos h]
  · show (if a + b ≤ durationMax then some (a + b) else none) = none
    rw [if_neg (by omega)]

/-- Witness for `c9_saturating_arithmetic` at `a = 5`, `b = 3`. -/
theorem c9_saturating_arithmetic_witness :
    (EmbassyTime.saturating_sub 5 3 = if 3 ≤ 5 then 5 - 3 else 0) ∧
    (5 + 3 ≤ durationMax → EmbassyTime.addChecked 5 3 = some (5 + 3)) ∧
    (durationMax < 5 + 3 → EmbassyTime.addChecked 5 3 = none) :=
  c9_saturating_arithmetic 5 3 (by decide) (by decide)

/-- **C8** (counterexample).  The claim asserts that a line for `ExecutorIdle`
or `ExecutorPollStart` carrying a trailing task-id field is not parsed
successfully; in the code a present third field is parsed as a `u32` and then
simply ignored by the executor-event arms, so such a line parses fine. -/
theorem c8_counterexample :
    TraceItem.parse_from_line "[1, 0, ExecutorIdle, 7, 42]".toList 9 =
      ParseOutcome.ok ⟨⟨1000, 9⟩, 0, .ExecutorIdle 7⟩ := by
  decide

/-- **C8** (amended).  The five task events require the trailing task id, and
`TraceItemType::from_parts` fails with `InvalidEventPayload` when it is
absent; the two executor events *accept* a well-formed trailing task-id field
and ignore it (an unparseable third field still fails with `InvalidTaskId`,
shown by `c8_counterexample`'s sibling facts elsewhere). -/
theorem c8_task_id_arity (s1 s2 : List Char) (e t : Nat)
    (h1 : parseU32 (trimChars s1) = some e) (h2 : parseU32 (trimChars s2) = some t) :
    (TraceItemType.from_parts ["TaskNew".toList, s1] =
      Except.error TraceParseError.InvalidEventPayload) ∧
    (TraceItemType.from_parts ["TaskEnd".toList, s1] =
      Except.error TraceParseError.InvalidEventPayload) ∧
    (TraceItemType.from_parts ["TaskExecBegin".toList, s1] =
      Except.error TraceParseError.InvalidEventPayload) ∧
    (TraceItemType.from_parts ["TaskExecEnd".toList, s1] =
      Except.error TraceParseError.InvalidEventPayload) ∧
    (TraceItemType.from_parts ["TaskReadyBegin".toList, s1] =
      Except.error TraceParseError.InvalidEventPayload) ∧
    (TraceItemType.from_parts ["ExecutorIdle".toList, s1, s2] =
      Except.ok (TraceItemType.ExecutorIdle e)) ∧
    (TraceItemType.from_parts ["ExecutorPollStart".toList, s1, s2] =
      Except.ok (TraceItemType.ExecutorPollStart e)) := by
  refine ⟨?_, ?_, ?_, ?_, ?_, ?_, ?_⟩ <;>
    simp +decide [TraceItemType.from_parts, h1, h2]

/-- Witness for `c8_task_id_arity` with executor-id field `"7"` and task-id
field `"42"`. -/
theorem c8_task_id_arity_witness :
    (TraceItemType.from_parts ["TaskNew".toList, "7".toList] =
      Except.error TraceParseError.InvalidEventPayload) ∧
    (TraceItemType.from_parts ["TaskEnd".toList, "7".toList] =
      Except.error TraceParseError.InvalidEventPayload) ∧
    (TraceItemType.from_parts ["TaskExecBegin".toList, "7".toList] =
      Except.error TraceParseError.InvalidEventPayload) ∧
    (TraceItemType.from_parts ["TaskExecEnd".toList, "7".toList] =
      Except.error TraceParseError.InvalidEventPayload) ∧
    (TraceItemType.from_parts ["TaskReadyBegin".toList, "7".toList] =
      Except.error TraceParseError.InvalidEventPayload) ∧
    (TraceItemType.from_parts ["ExecutorIdle".toList, "7".toList, "42".toList] =
      Except.ok (TraceItemType.ExecutorIdle 7)) ∧
    (TraceItemType.from_parts ["ExecutorPollStart".toList, "7".toList, "42".toList] =
      Except.ok (TraceItemType.ExecutorPollStart 7)) :=
  c8_task_id_arity "7".toList "42".toList 7 42 (by decide) (by decide)

/-- The fold over completed waiting durations counts exactly the list
length. -/
theorem waitingFold_count (l : List Nat) (init : WaitingFoldStats) :
    (l.foldl waitingFoldStep init).count = init.count + l.length := by
  induction l generalizing init with
  | nil => simp
  | cons h tl ih =>
    rw [List.foldl_cons, ih]
    simp [waitingFoldStep]
    omega

/-- **C10**.  The waiting-time query returns `none` exactly when the bounded
history holds no completed `Waiting` entry: with no completed sample the fold
leaves `min = Duration::MAX`, so an ongoing waiting duration (always
representable, hypothesis `hrep`) can never exceed it and is not counted;
conversely one completed entry already makes the count positive.  When the
query is `none`, `TaskStats::from_task` falls back to zeroed waiting
statistics. -/
theorem c10_none_iff_no_completed_waiting (t : TaskTraceInfo) (now : Nat)
    (hrep : now - t.state_start_time.pc ≤ durationMax) :
    (t.calc_min_mean_max_count_waiting_time now = none ↔
      t.state_history.filter (fun en => en.state = TaskTraceState.Waiting) = []) ∧
    (t.state_history.filter (fun en => en.state = TaskTraceState.Waiting) = [] →
      (TaskStats.from_task t now).min_waiting_time = 0 ∧
      (TaskStats.from_task t now).avg_waiting_time = 0 ∧
      (TaskStats.from_task t now).max_waiting_time = 0 ∧
      (TaskStats.from_task t now).count_waiting_time = 0) := by
  have hcur : t.calc_current_state_duration now = now - t.state_start_time.pc := by
    show t.state_start_time.uc + (now - t.state_start_time.pc) - t.state_start_time.uc = _
    rw [Nat.add_sub_cancel_left]
  have hmain : t.calc_min_mean_max_count_waiting_time now = none ↔
      t.state_history.filter (fun en => en.state = TaskTraceState.Waiting) = [] := by
    unfold TaskTraceInfo.calc_min_mean_max_count_waiting_time
    cases hf : t.state_history.filter (fun en => en.state = TaskTraceState.Waiting) with
    | nil =>
      simp only [List.map_nil, List.foldl_nil]
      refine iff_of_true ?_ trivial
      simp only [hcur]
      have hng : ¬ durationMax < now - t.state_start_time.pc := by omega
      split
      · next hw =>
        simp only [gt_iff_lt, hng, if_false]
        split <;> simp
      · simp
    | cons h tl =>
      refine iff_of_false ?_ (by simp)
      simp only [hcur]
      generalize hs0 : List.foldl waitingFoldStep
          ({ min := durationMax, max := 0, sum := 0, count := 0 } : WaitingFoldStats)
          (List.map TaskHistoryEntry.get_uc_duration (h :: tl)) = s0
      have hc : s0.count = tl.length + 1 := by
        rw [← hs0, waitingFold_count]
        simp
      split
      · next hw =>
        split
        · next h1 =>
          split
          · next h2 => simp <;> omega
          · simp <;> omega
        · next h1 =>
          split
          · next h2 => simp <;> omega
          · simp <;> omega
      · simp <;> omega
  refine ⟨hmain, fun hf => ?_⟩
  have hnone := hmain.2 hf
  refine ⟨?_, ?_, ?_, ?_⟩ <;> simp [TaskStats.from_task, hnone]

/-- Witness for `c10_none_iff_no_completed_waiting`: a task currently
`Waiting` whose history holds only a `Spawned` entry. -/
theorem c10_witness :
    (c10Task.calc_min_mean_max_count_waiting_time 5 = none ↔
      c10Task.state_history.filter (fun en => en.state = TaskTraceState.Waiting) = []) ∧
    (c10Task.state_history.filter (fun en => en.state = TaskTraceState.Waiting) = [] →
      (TaskStats.from_task c10Task 5).min_waiting_time = 0 ∧
      (TaskStats.from_task c10Task 5).avg_waiting_time = 0 ∧
      (TaskStats.from_task c10Task 5).max_waiting_time = 0 ∧
      (TaskStats.from_task c10Task 5).count_waiting_time = 0) :=
  c10_none_iff_no_completed_waiting c10Task 5 (by decide)

/-! ### Projection helpers for the executor state machine -/

theorem ExecutorTraceInfo.set_new_state_state (ex : ExecutorTraceInfo)
    (s : ExecutorState) (tp : TimePair) : (ex.set_new_state s tp).state = s := by
  unfold ExecutorTraceInfo.set_new_state
  split
  · next h => exact h
  · rfl

theorem ExecutorTraceInfo.set_new_state_executor_id (ex : ExecutorTraceInfo)
    (s : ExecutorState) (tp : TimePair) :
    (ex.set_new_state s tp).executor_id = ex.executor_id := by
  unfold ExecutorTraceInfo.set_new_state
  split <;> rfl

theorem ExecutorTraceInfo.preemptStep_executor_id (ex : ExecutorTraceInfo)
    (e : TraceItem) : (ex.preemptStep e).executor_id = ex.executor_id := by
  unfold ExecutorTraceInfo.preemptStep
  split <;> first
    | rfl
    | (split <;> simp [ExecutorTraceInfo.set_new_state_executor_id])

theorem ExecutorTraceInfo.update_tasks_executor_id (ex : ExecutorTraceInfo)
    (w : Nat) (e : TraceItem) :
    (ex.update_tasks w e).executor_id = ex.executor_id := by
  unfold ExecutorTraceInfo.update_tasks
  dsimp only
  repeat' split
  all_goals simp [ExecutorTraceInfo.preemptStep_executor_id]

theorem ExecutorTraceInfo.update_tasks_state (ex : ExecutorTraceInfo)
    (w : Nat) (e : TraceItem) :
    (ex.update_tasks w e).state = (ex.preemptStep e).state := by
  unfold ExecutorTraceInfo.update_tasks
  dsimp only
  repeat' split
  all_goals rfl

theorem ExecutorTraceInfo.execTableStep_executor_id (ex : ExecutorTraceInfo)
    (e : TraceItem) : (ex.execTableStep e).executor_id = ex.executor_id := by
  unfold ExecutorTraceInfo.execTableStep
  split <;> first
    | rfl
    | (split <;> simp [ExecutorTraceInfo.set_new_state_executor_id])

theorem ExecutorTraceInfo.update_executor_id (ex : ExecutorTraceInfo)
    (w : Nat) (e : TraceItem) :
    (ex.update w e).executor_id = ex.executor_id := by
  unfold ExecutorTraceInfo.update
  dsimp only
  split <;>
    simp [ExecutorTraceInfo.execTableStep_executor_id,
      ExecutorTraceInfo.update_tasks_executor_id]

/-- An event whose executor id differs from this executor's reduces `update`
to `update_tasks` (the own-transition block and eviction are skipped). -/
theorem ExecutorTraceInfo.update_of_foreign (ex : ExecutorTraceInfo)
    (w : Nat) (e : TraceItem) (h : e.data.get_executor_id ≠ ex.executor_id) :
    ex.update w e = ex.update_tasks w e := by
  unfold ExecutorTraceInfo.update
  dsimp only
  rw [if_neg]
  rw [ExecutorTraceInfo.update_tasks_executor_id]
  exact h

/-- **C5**.  An executor in `Polling` on core 0 receiving `ExecutorPollStart`
for a different executor `B` on core 0 moves to
`Preempted{by_executor_id := B, prev_state := Polling}`; a subsequent
`ExecutorIdle` of `B` restores `Polling`; an `ExecutorIdle` of an unrelated
executor `C` leaves the state unchanged. -/
theorem c5_cross_executor_preemption (ex : ExecutorTraceInfo) (B C : Nat)
    (tp1 tp2 tp3 : TimePair) (w : Nat)
    (hstate : ex.state = ExecutorState.Polling) (hcore : ex.core_id = 0)
    (hB : B ≠ ex.executor_id) (hC1 : C ≠ B) (hC2 : C ≠ ex.executor_id) :
    (ex.update w ⟨tp1, 0, .ExecutorPollStart B⟩).state =
      ExecutorState.Preempted B PreemptedPrevState.Polling ∧
    ((ex.update w ⟨tp1, 0, .ExecutorPollStart B⟩).update w
        ⟨tp2, 0, .ExecutorIdle B⟩).state = ExecutorState.Polling ∧
    ((ex.update w ⟨tp1, 0, .ExecutorPollStart B⟩).update w
        ⟨tp3, 0, .ExecutorIdle C⟩).state =
      (ex.update w ⟨tp1, 0, .ExecutorPollStart B⟩).state := by
  have hforeign1 : (TraceItem.mk tp1 0 (.ExecutorPollStart B)).data.get_executor_id ≠
      ex.executor_id := hB
  have h1 : (ex.update w ⟨tp1, 0, .ExecutorPollStart B⟩).state =
      ExecutorState.Preempted B PreemptedPrevState.Polling := by
    rw [ExecutorTraceInfo.update_of_foreign _ _ _ hforeign1,
      ExecutorTraceInfo.update_tasks_state]
    simp [ExecutorTraceInfo.preemptStep, hstate, hB, hcore,
      ExecutorTraceInfo.set_new_state_state]
  have hexid : (ex.update w ⟨tp1, 0, .ExecutorPollStart B⟩).executor_id =
      ex.executor_id := ExecutorTraceInfo.update_executor_id ..
  refine ⟨h1, ?_, ?_⟩
  · have hforeign2 : (TraceItem.mk tp2 0 (.ExecutorIdle B)).data.get_executor_id ≠
        (ex.update w ⟨tp1, 0, .ExecutorPollStart B⟩).executor_id := by
      rw [hexid]; exact hB
    rw [ExecutorTraceInfo.update_of_foreign _ _ _ hforeign2,
      ExecutorTraceInfo.update_tasks_state]
    simp [ExecutorTraceInfo.preemptStep, h1,
      ExecutorTraceInfo.set_new_state_state, PreemptedPrevState.toState]
  · have hforeign3 : (TraceItem.mk tp3 0 (.ExecutorIdle C)).data.get_executor_id ≠
        (ex.update w ⟨tp1, 0, .ExecutorPollStart B⟩).executor_id := by
      rw [hexid]; exact hC2
    rw [ExecutorTraceInfo.update_of_foreign _ _ _ hforeign3,
      ExecutorTraceInfo.update_tasks_state]
    simp [ExecutorTraceInfo.preemptStep, h1, hC1]

/-- Witness for `c5_cross_executor_preemption`: executor 1 polling on core 0,
preempted by executor 2, with executor 3 unrelated. -/
theorem c5_cross_executor_preemption_witness :
    (c5Executor.update 30 ⟨⟨100, 100⟩, 0, .ExecutorPollStart 2⟩).state =
      ExecutorState.Preempted 2 PreemptedPrevState.Polling ∧
    ((c5Executor.update 30 ⟨⟨100, 100⟩, 0, .ExecutorPollStart 2⟩).update 30
        ⟨⟨200, 200⟩, 0, .ExecutorIdle 2⟩).state = ExecutorState.Polling ∧
    ((c5Executor.update 30 ⟨⟨100, 100⟩, 0, .ExecutorPollStart 2⟩).update 30
        ⟨⟨300, 300⟩, 0, .ExecutorIdle 3⟩).state =
      (c5Executor.update 30 ⟨⟨100, 100⟩, 0, .ExecutorPollStart 2⟩).state :=
  c5_cross_executor_preemption c5Executor 2 3 ⟨100, 100⟩ ⟨200, 200⟩ ⟨300, 300⟩ 30
    rfl rfl (by decide) (by decide) (by decide)

/-! ### The last-history-entry invariant (C3) -/

/-- Front eviction only removes entries, so a surviving last entry was the
last entry before eviction. -/
theorem dropOldHistory_getLast_some {α : Type} (f : α → Nat) (m c : Nat)
    (l : List α) (x : α) (h : (dropOldHistory f m c l).getLast? = some x) :
    l.getLast? = some x := by
  induction l with
  | nil => simpa [dropOldHistory] using h
  | cons a rest ih =>
    rw [dropOldHistory] at h
    by_cases hc : c - f a > m
    · rw [if_pos hc] at h
      have hrest := ih h
      cases rest with
      | nil => simp at hrest
      | cons b rest2 => simpa using hrest
    · rw [if_neg hc] at h
      exact h

theorem task_set_new_state_lastInv (t : TaskTraceInfo) (ns : TaskTraceState)
    (tp : TimePair) (h : TaskLastInv t) : TaskLastInv (t.set_new_state ns tp) := by
  unfold TaskTraceInfo.set_new_state
  split
  · exact h
  · intro en hen
    simp only at hen
    rw [List.getLast?_concat] at hen
    injection hen with h2
    subst h2
    rfl

theorem taskTableStep_lastInv (t : TaskTraceInfo) (e : TraceItem)
    (h : TaskLastInv t) : TaskLastInv (t.taskTableStep e) := by
  unfold TaskTraceInfo.taskTableStep
  repeat' split
  all_goals first
    | exact h
    | exact task_set_new_state_lastInv _ _ _ h

theorem updateRest_lastInv (w : Nat) (t : TaskTraceInfo) (e : TraceItem)
    (h : TaskLastInv t) : TaskLastInv (t.updateRest w e) := by
  unfold TaskTraceInfo.updateRest
  dsimp only
  repeat' split
  all_goals first
    | exact h
    | (intro en hen
       exact taskTableStep_lastInv t e h en
         (dropOldHistory_getLast_some _ _ _ _ _ hen))

theorem task_update_lastInv (w : Nat) (t : TaskTraceInfo) (e : TraceItem)
    (h : TaskLastInv t) : TaskLastInv (t.update w e) := by
  unfold TaskTraceInfo.update
  repeat' split
  all_goals first
    | exact updateRest_lastInv _ _ _ h
    | exact task_set_new_state_lastInv _ _ _ h

theorem foldl_lastInv (w : Nat) (events : List TraceItem) (t : TaskTraceInfo)
    (h : TaskLastInv t) :
    TaskLastInv (events.foldl (TaskTraceInfo.update w) t) := by
  induction events generalizing t with
  | nil => exact h
  | cons e tl ih => exact ih _ (task_update_lastInv w t e h)

theorem lastInv_new (task_id executor_id core_id : Nat) (created_at : TimePair) :
    TaskLastInv (TaskTraceInfo.new task_id executor_id core_id created_at) := by
  intro en hen
  simp [TaskTraceInfo.new] at hen

/-- **C3** (counterexample).  The claim also asserts `state_start =
created_at` whenever the history is empty; but front eviction can empty a
history without touching `state_start`: after one accepted transition at
host time 1 s and one ignored event at host time 100 s (window 30 s) the
history is empty while `state_start` is the 1 s transition time, not
`created_at`. -/
theorem c3_counterexample :
    c3Task.state_history = [] ∧ c3Task.state_start_time ≠ c3Task.created_at := by
  decide

/-- **C3** (amended).  Across arbitrary event sequences applied to a fresh
task record, `state_start_time` equals the `end` timestamp of the most
recent history entry whenever the history is nonempty (when the history is
empty it equals `created_at` only until eviction first empties a nonempty
history, per `c3_counterexample`). -/
theorem c3_state_start_eq_last_end (task_id executor_id core_id : Nat)
    (created_at : TimePair) (w : Nat) (events : List TraceItem)
    (en : TaskHistoryEntry)
    (h : (events.foldl (TaskTraceInfo.update w)
        (TaskTraceInfo.new task_id executor_id core_id created_at)).state_history.getLast? =
      some en) :
    (events.foldl (TaskTraceInfo.update w)
        (TaskTraceInfo.new task_id executor_id core_id created_at)).state_start_time =
      en.end_time :=
  foldl_lastInv w events _ (lastInv_new task_id executor_id core_id created_at) en h

/-- Witness for `c3_state_start_eq_last_end`: one accepted transition leaves
one history entry ending at the event's timestamp, which equals
`state_start_time`. -/
theorem c3_state_start_eq_last_end_witness :
    c3WitnessTask.state_start_time =
      (TaskHistoryEntry.mk .Spawned ⟨0, 0⟩ ⟨1000, 1000000000⟩).end_time :=
  c3_state_start_eq_last_end 42 1 0 ⟨0, 0⟩ 30
    [mkEvent 1000 1000000000 (.TaskReadyBegin 1 42)]
    ⟨.Spawned, ⟨0, 0⟩, ⟨1000, 1000000000⟩⟩ (by decide)


theorem dropOldHistory_mem {α : Type} (f : α → Nat) (m c : Nat) (l : List α)
    (x : α) (h : x ∈ dropOldHistory f m c l) : x ∈ l := by
  induction l with
  | nil => simpa [dropOldHistory] using h
  | cons a rest ih =>
    rw [dropOldHistory] at h
    by_cases hc : c - f a > m
    · rw [if_pos hc] at h
      exact List.mem_cons_of_mem a (ih h)
    · rw [if_neg hc] at h
      exact h

theorem dropOldHistory_all_ok {α : Type} (f : α → Nat) (m c : Nat)
    (l1 l2 : List α) (h1 : l1.Pairwise (fun a b => f a ≤ f b))
    (h2 : ∀ x ∈ l2, c - f x ≤ m) :
    ∀ x ∈ dropOldHistory f m c (l1 ++ l2), c - f x ≤ m := by
  induction l1 with
  | nil =>
    intro x hx
    exact h2 x (dropOldHistory_mem _ _ _ _ _ hx)
  | cons a rest ih =>
    intro x hx
    rw [List.cons_append, dropOldHistory] at hx
    by_cases hc : c - f a > m
    · rw [if_pos hc] at hx
      exact ih (List.pairwise_cons.1 h1).2 x hx
    · rw [if_neg hc] at hx
      rcases List.mem_cons.1 hx with rfl | hx2
      · omega
      · rcases List.mem_append.1 hx2 with hr | hl2
        · have := (List.pairwise_cons.1 h1).1 x hr
          omega
        · exact h2 x hl2

theorem task_set_new_state_hist (t : TaskTraceInfo) (ns : TaskTraceState)
    (tp : TimePair) :
    ∃ tl, (t.set_new_state ns tp).state_history = t.state_history ++ tl ∧
      ∀ x ∈ tl, x.end_time = tp := by
  unfold TaskTraceInfo.set_new_state
  split
  · exact ⟨[], by simp, by simp⟩
  · exact ⟨[⟨t.state, t.state_start_time, tp⟩], rfl, by simp⟩

theorem taskTableStep_hist (t : TaskTraceInfo) (e : TraceItem) :
    ∃ tl, (t.taskTableStep e).state_history = t.state_history ++ tl ∧
      ∀ x ∈ tl, x.end_time = e.time_pair := by
  unfold TaskTraceInfo.taskTableStep
  repeat' split
  all_goals first
    | exact task_set_new_state_hist _ _ _
    | exact ⟨[], by simp, by simp⟩

theorem task_update_targeted (w : Nat) (t : TaskTraceInfo) (e : TraceItem)
    (htid : e.data.get_task_id = some t.task_id)
    (hexec : e.data.get_executor_id = t.executor_id) :
    (t.update w e).state_history =
      dropOldHistory (fun en => en.end_time.pc) (ComputerTime.from_s w)
        e.time_pair.pc (t.taskTableStep e).state_history := by
  have hupd : t.update w e = t.updateRest w e := by
    unfold TaskTraceInfo.update
    cases hd : e.data with
    | ExecutorIdle eid =>
      rw [hd] at htid
      simp [TraceItemType.get_task_id] at htid
    | ExecutorPollStart eid =>
      rw [hd] at htid
      simp [TraceItemType.get_task_id] at htid
    | TaskNew a b => cases t.state <;> rfl
    | TaskEnd a b => cases t.state <;> rfl
    | TaskExecBegin a b => cases t.state <;> rfl
    | TaskExecEnd a b => cases t.state <;> rfl
    | TaskReadyBegin a b => cases t.state <;> rfl
  rw [hupd]
  unfold TaskTraceInfo.updateRest
  dsimp only
  rw [if_neg (show ¬ e.data.get_executor_id ≠ t.executor_id from fun hne => hne hexec)]
  simp only [htid]
  simp

theorem exec_set_new_state_hist (ex : ExecutorTraceInfo) (s : ExecutorState)
    (tp : TimePair) :
    ∃ tl, (ex.set_new_state s tp).state_history = ex.state_history ++ tl ∧
      ∀ x ∈ tl, x.end_time = tp := by
  unfold ExecutorTraceInfo.set_new_state
  split
  · exact ⟨[], by simp, by simp⟩
  · exact ⟨[⟨ex.state, ex.state_start_time, tp⟩], rfl, by simp⟩

theorem preemptStep_hist (ex : ExecutorTraceInfo) (e : TraceItem) :
    ∃ tl, (ex.preemptStep e).state_history = ex.state_history ++ tl ∧
      ∀ x ∈ tl, x.end_time = e.time_pair := by
  unfold ExecutorTraceInfo.preemptStep
  repeat' split
  all_goals first
    | exact exec_set_new_state_hist _ _ _
    | exact ⟨[], by simp, by simp⟩

theorem update_tasks_hist (ex : ExecutorTraceInfo) (w : Nat) (e : TraceItem) :
    (ex.update_tasks w e).state_history = (ex.preemptStep e).state_history := by
  unfold ExecutorTraceInfo.update_tasks
  dsimp only
  repeat' split
  all_goals rfl

theorem execTableStep_hist (ex : ExecutorTraceInfo) (e : TraceItem) :
    ∃ tl, (ex.execTableStep e).state_history = ex.state_history ++ tl ∧
      ∀ x ∈ tl, x.end_time = e.time_pair := by
  unfold ExecutorTraceInfo.execTableStep
  repeat' split
  all_goals first
    | exact exec_set_new_state_hist _ _ _
    | exact ⟨[], by simp, by simp⟩

theorem exec_update_own (w : Nat) (ex : ExecutorTraceInfo) (e : TraceItem)
    (hexec : e.data.get_executor_id = ex.executor_id) :
    (ex.update w e).state_history =
      dropOldHistory (fun en => en.end_time.pc) (ComputerTime.from_s w)
        e.time_pair.pc ((ex.update_tasks w e).execTableStep e).state_history := by
  unfold ExecutorTraceInfo.update
  dsimp only
  rw [if_pos (by rw [ExecutorTraceInfo.update_tasks_executor_id]; exact hexec)]

/-- **C4** (amended).  Eviction happens only when an entity processes an
event addressed to it (matching task id and executor id for a task; matching
executor id for an executor), not relative to the globally last applied
event: after such a targeted update, provided the prior history end
host-times were non-decreasing (true for in-order event streams), every
surviving entry's end host-time age relative to that event is within the
window; eviction is from the front, oldest first, per entity. -/
theorem c4_eviction_on_targeted_updates :
    (∀ (w : Nat) (t : TaskTraceInfo) (e : TraceItem),
      t.state_history.Pairwise (fun a b => a.end_time.pc ≤ b.end_time.pc) →
      e.data.get_task_id = some t.task_id →
      e.data.get_executor_id = t.executor_id →
      ∀ en ∈ (t.update w e).state_history,
        e.time_pair.pc - en.end_time.pc ≤ ComputerTime.from_s w) ∧
    (∀ (w : Nat) (ex : ExecutorTraceInfo) (e : TraceItem),
      ex.state_history.Pairwise (fun a b => a.end_time.pc ≤ b.end_time.pc) →
      e.data.get_executor_id = ex.executor_id →
      ∀ en ∈ (ex.update w e).state_history,
        e.time_pair.pc - en.end_time.pc ≤ ComputerTime.from_s w) := by
  constructor
  · intro w t e hsort htid hexec en hen
    rw [task_update_targeted w t e htid hexec] at hen
    obtain ⟨tl, htl, hends⟩ := taskTableStep_hist t e
    rw [htl] at hen
    refine dropOldHistory_all_ok _ _ _ _ _ hsort ?_ en hen
    intro x hx
    rw [hends x hx]
    simp
  · intro w ex e hsort hexec en hen
    rw [exec_update_own w ex e hexec] at hen
    obtain ⟨tl1, htl1, hends1⟩ := preemptStep_hist ex e
    obtain ⟨tl2, htl2, hends2⟩ := execTableStep_hist (ex.update_tasks w e) e
    rw [htl2, update_tasks_hist, htl1, List.append_assoc] at hen
    refine dropOldHistory_all_ok _ _ _ _ _ hsort ?_ en hen
    intro x hx
    rcases List.mem_append.1 hx with h1 | h2
    · rw [hends1 x h1]; simp
    · rw [hends2 x h2]; simp


/-- **C4** (counterexample).  The claim requires (after any event sequence)
no history entry older than the window relative to the *last applied* event;
but eviction only runs inside updates addressed to the entity.  Here the last
event (host time 100 s) belongs to executor 2, so executor 1's task keeps its
entry ending at host time 1 s, whose age (99 s) exceeds the 30 s window. -/
theorem c4_counterexample :
    c4Registry.map
        (fun ex => ex.tasks.map (fun t => t.state_history.map (fun en => en.end_time.pc))) =
      [[[1000000000]], [[]]] ∧
    100000000000 - 1000000000 > ComputerTime.from_s 30 := by
  decide

/-- Witness for `c4_eviction_on_targeted_updates` (task part): a targeted
`TaskReadyBegin` at host time 10 keeps the recent entry ending at host
time 5, which is within the 30 s window. -/
theorem c4_eviction_witness :
    c4WitnessEntry ∈ (c4WitnessTask.update 30 c4WitnessEvent).state_history ∧
    c4WitnessEvent.time_pair.pc - c4WitnessEntry.end_time.pc ≤ ComputerTime.from_s 30 :=
  ⟨by decide,
    c4_eviction_on_targeted_updates.1 30 c4WitnessTask c4WitnessEvent
      (by decide) rfl rfl c4WitnessEntry (by decide)⟩

/-! ### Utilization bounds (C7) -/

theorem asSecsQ_nonneg (n : Nat) : 0 ≤ asSecsQ n := by
  unfold asSecsQ
  positivity

theorem exec_active_nonneg (ex : ExecutorTraceInfo) (now : Nat) :
    0 ≤ ex.active_tracked_secs now := by
  unfold ExecutorTraceInfo.active_tracked_secs
  have h1 : 0 ≤ (((ex.state_history.filter (fun en => en.state.isActive)).map
      (fun en => asSecsQ en.pc_duration)).sum) := by
    apply List.sum_nonneg
    intro x hx
    obtain ⟨en, _, rfl⟩ := List.mem_map.1 hx
    exact asSecsQ_nonneg _
  have h2 : 0 ≤ (if ex.state.isActive then
      asSecsQ (ex.current_estimated_duration now) else 0) := by
    split
    · exact asSecsQ_nonneg _
    · exact le_refl 0
  linarith

theorem exec_active_le_total (ex : ExecutorTraceInfo) (now : Nat) :
    ex.active_tracked_secs now ≤ ex.total_tracked_secs now := by
  unfold ExecutorTraceInfo.active_tracked_secs ExecutorTraceInfo.total_tracked_secs
  have h1 : (((ex.state_history.filter (fun en => en.state.isActive)).map
      (fun en => asSecsQ en.pc_duration)).sum) ≤
      ((ex.state_history.map (fun en => asSecsQ en.pc_duration)).sum) := by
    refine List.Sublist.sum_le_sum ?_ ?_
    · exact (List.filter_sublist _).map _
    · intro x hx
      obtain ⟨en, _, rfl⟩ := List.mem_map.1 hx
      exact asSecsQ_nonneg _
  have h2 : (if ex.state.isActive then
      asSecsQ (ex.current_estimated_duration now) else 0) ≤
      asSecsQ (ex.current_estimated_duration now) := by
    split
    · exact le_refl _
    · exact asSecsQ_nonneg _
  linarith

/-- Executor utilization bounds hold for arbitrary records: active time is a
sub-sum of total time by construction of the accumulation loop. -/
theorem exec_util_bounds (ex : ExecutorTraceInfo) (now : Nat) :
    0 ≤ ex.calculate_cpu_utilization now ∧
    ex.calculate_cpu_utilization now ≤ 100 ∧
    (ex.total_tracked_secs now = 0 → ex.calculate_cpu_utilization now = 0) := by
  unfold ExecutorTraceInfo.calculate_cpu_utilization
  by_cases hpos : ex.total_tracked_secs now > 0
  · rw [if_pos hpos]
    have ha := exec_active_nonneg ex now
    have hat := exec_active_le_total ex now
    have h1 : ex.active_tracked_secs now / ex.total_tracked_secs now ≤ 1 :=
      (div_le_one hpos).2 hat
    refine ⟨by positivity, ?_, fun h0 => ?_⟩
    · have := mul_le_mul_of_nonneg_right h1 (by norm_num : (0:ℚ) ≤ 100)
      linarith
    · rw [h0] at hpos
      exact absurd hpos (lt_irrefl 0)
  · rw [if_neg hpos]
    exact ⟨le_refl 0, by norm_num, fun _ => rfl⟩

/-- Contiguous histories with per-entry monotone device times telescope: the
summed durations equal last end minus first start. -/
theorem hist_chain_sum (l : List TaskHistoryEntry)
    (hchain : l.Chain' (fun a b => b.start_time = a.end_time))
    (hmono : ∀ en ∈ l, en.start_time.uc ≤ en.end_time.uc) :
    ∀ a b, l.head? = some a → l.getLast? = some b →
      (l.map TaskHistoryEntry.get_uc_duration).sum = b.end_time.uc - a.start_time.uc ∧
      a.start_time.uc ≤ b.end_time.uc := by
  induction l with
  | nil => intro a b ha _; simp at ha
  | cons x rest ih =>
    intro a b ha hb
    have hax : a = x := by
      simp only [List.head?_cons, Option.some.injEq] at ha
      exact ha.symm
    subst hax
    cases rest with
    | nil =>
      have hbx : b = a := by
        simp only [List.getLast?_singleton, Option.some.injEq] at hb
        exact hb.symm
      subst hbx
      have hm := hmono b (by simp)
      constructor
      · simp [TaskHistoryEntry.get_uc_duration, EmbassyTime.saturating_sub]
      · exact hm
    | cons y rest2 =>
      have hxy : y.start_time = a.end_time := (List.chain'_cons.1 hchain).1
      have hchain2 : (y :: rest2).Chain' (fun a b => b.start_time = a.end_time) :=
        (List.chain'_cons.1 hchain).2
      have hmono2 : ∀ en ∈ y :: rest2, en.start_time.uc ≤ en.end_time.uc :=
        fun en hen => hmono en (List.mem_cons_of_mem _ hen)
      have hb2 : (y :: rest2).getLast? = some b := by
        simpa using hb
      obtain ⟨hsum, hle⟩ := ih hchain2 hmono2 y b rfl hb2
      have hma := hmono a (by simp)
      have hyuc : y.start_time.uc = a.end_time.uc := by rw [hxy]
      constructor
      · rw [List.map_cons, List.sum_cons, hsum]
        simp only [TaskHistoryEntry.get_uc_duration, EmbassyTime.saturating_sub]
        omega
      · omega

/-- Under the reachable-history invariant, `Running` time never exceeds the
total tracked duration. -/
theorem task_running_le_total (t : TaskTraceInfo) (now : Nat)
    (hInv : TaskHistInv t) :
    t.calc_total_history_state_duration .Running now ≤
      t.calc_total_history_duration now := by
  obtain ⟨hchain, hmono, hlast⟩ := hInv
  have hcur : t.calc_current_state_duration now = now - t.state_start_time.pc := by
    show t.state_start_time.uc + (now - t.state_start_time.pc) - t.state_start_time.uc = _
    rw [Nat.add_sub_cancel_left]
  unfold TaskTraceInfo.calc_total_history_state_duration
    TaskTraceInfo.calc_total_history_duration
    TaskTraceInfo.extrapolate_current_state_duration
  rw [hcur]
  cases hl : t.state_history with
  | nil =>
    simp only [List.filter_nil, List.map_nil, List.sum_nil, List.head?_nil]
    split <;> simp [ComputerTime.diff_to_now, EmbassyTime.saturating_sub] <;> omega
  | cons x rest =>
    obtain ⟨b, hb⟩ : ∃ b, (x :: rest).getLast? = some b :=
      Option.isSome_iff_exists.1 (by simp [List.getLast?_isSome])
    have hb0 : t.state_history.getLast? = some b := by rw [hl]; exact hb
    have hss : t.state_start_time = b.end_time := hlast b hb0
    obtain ⟨hsum, hle⟩ := hist_chain_sum (x :: rest) (hl ▸ hchain)
      (fun en hen => hmono en (hl ▸ hen)) x b rfl hb
    have hfil : (((x :: rest).filter (fun en => en.state = TaskTraceState.Running)).map
        TaskHistoryEntry.get_uc_duration).sum ≤
        ((x :: rest).map TaskHistoryEntry.get_uc_duration).sum := by
      refine List.Sublist.sum_le_sum ?_ ?_
      · exact (List.filter_sublist _).map _
      · intro v hv
        exact Nat.zero_le v
    simp only [List.head?_cons]
    rw [hsum] at hfil
    have hssuc : t.state_start_time.uc = b.end_time.uc := by rw [hss]
    simp only [ComputerTime.diff_to_now, EmbassyTime.saturating_sub]
    split <;> omega

theorem dropOldHistory_chain {α : Type} {R : α → α → Prop} (f : α → Nat)
    (m c : Nat) (l : List α) (h : l.Chain' R) :
    (dropOldHistory f m c l).Chain' R := by
  induction l with
  | nil => exact h
  | cons a rest ih =>
    rw [dropOldHistory]
    by_cases hc : c - f a > m
    · rw [if_pos hc]
      exact ih h.tail
    · rw [if_neg hc]
      exact h

theorem task_set_new_state_histInv (t : TaskTraceInfo) (ns : TaskTraceState)
    (tp : TimePair) (h : TaskHistInv t)
    (huc : t.state_start_time.uc ≤ tp.uc) :
    TaskHistInv (t.set_new_state ns tp) := by
  obtain ⟨hchain, hmono, hlast⟩ := h
  unfold TaskTraceInfo.set_new_state
  split
  · exact ⟨hchain, hmono, hlast⟩
  · refine ⟨?_, ?_, ?_⟩
    · show (t.state_history ++ [(⟨t.state, t.state_start_time, tp⟩ : TaskHistoryEntry)]).Chain'
        (fun a b => b.start_time = a.end_time)
      rw [List.chain'_append]
      refine ⟨hchain, List.chain'_singleton _, ?_⟩
      intro x hx y hy
      simp only [List.head?_cons, Option.mem_def, Option.some.injEq] at hy
      subst hy
      exact hlast x hx
    · intro en hen
      rcases List.mem_append.1 hen with h1 | h2
      · exact hmono en h1
      · simp only [List.mem_singleton] at h2
        subst h2
        exact huc
    · intro en hen
      simp only at hen
      rw [List.getLast?_concat] at hen
      injection hen with h2
      subst h2
      rfl

theorem taskTableStep_histInv (t : TaskTraceInfo) (e : TraceItem)
    (h : TaskHistInv t) (huc : t.state_start_time.uc ≤ e.time_pair.uc) :
    TaskHistInv (t.taskTableStep e) := by
  unfold TaskTraceInfo.taskTableStep
  repeat' split
  all_goals first
    | exact h
    | exact task_set_new_state_histInv _ _ _ h huc

theorem task_drain_histInv (t : TaskTraceInfo) (m c : Nat) (h : TaskHistInv t) :
    TaskHistInv
      { t with state_history :=
          dropOldHistory (fun en => en.end_time.pc) m c t.state_history } := by
  obtain ⟨hchain, hmono, hlast⟩ := h
  refine ⟨dropOldHistory_chain _ _ _ _ hchain, ?_, ?_⟩
  · intro en hen
    exact hmono en (dropOldHistory_mem _ _ _ _ _ hen)
  · intro en hen
    exact hlast en (dropOldHistory_getLast_some _ _ _ _ _ hen)

theorem task_updateRest_histInv (w : Nat) (t : TaskTraceInfo) (e : TraceItem)
    (h : TaskHistInv t) (huc : t.state_start_time.uc ≤ e.time_pair.uc) :
    TaskHistInv (t.updateRest w e) := by
  unfold TaskTraceInfo.updateRest
  dsimp only
  repeat' split
  all_goals first
    | exact h
    | exact task_drain_histInv _ _ _ (taskTableStep_histInv t e h huc)

theorem task_update_histInv (w : Nat) (t : TaskTraceInfo) (e : TraceItem)
    (h : TaskHistInv t) (huc : t.state_start_time.uc ≤ e.time_pair.uc) :
    TaskHistInv (t.update w e) := by
  unfold TaskTraceInfo.update
  repeat' split
  all_goals first
    | exact task_updateRest_histInv _ _ _ h huc
    | exact task_set_new_state_histInv _ _ _ h huc

theorem task_update_state_start (w : Nat) (t : TaskTraceInfo) (e : TraceItem) :
    (t.update w e).state_start_time = t.state_start_time ∨
    (t.update w e).state_start_time = e.time_pair := by
  unfold TaskTraceInfo.update TaskTraceInfo.updateRest TaskTraceInfo.taskTableStep
    TaskTraceInfo.set_new_state
  dsimp only
  repeat' split
  all_goals first
    | exact Or.inl rfl
    | exact Or.inr rfl

theorem chain_le_weaken {a b : Nat} (l : List Nat) (hab : a ≤ b)
    (h : List.Chain (fun x y => x ≤ y) b l) :
    List.Chain (fun x y => x ≤ y) a l := by
  cases h with
  | nil => exact List.Chain.nil
  | cons hr hc => exact List.Chain.cons (le_trans hab hr) hc

/-- The reachable-history invariant is preserved along any event stream whose
device timestamps are non-decreasing. -/
theorem task_foldl_histInv (w : Nat) (events : List TraceItem) (t : TaskTraceInfo)
    (h : TaskHistInv t)
    (hmono : List.Chain (fun a b => a ≤ b) t.state_start_time.uc
      (events.map (fun e => e.time_pair.uc))) :
    TaskHistInv (events.foldl (TaskTraceInfo.update w) t) := by
  induction events generalizing t with
  | nil => exact h
  | cons e tl ih =>
    rw [List.map_cons] at hmono
    cases hmono with
    | cons hr hc =>
      refine ih _ (task_update_histInv w t e h hr) ?_
      rcases task_update_state_start w t e with heq | heq <;> rw [heq]
      · exact chain_le_weaken _ hr hc
      · exact hc

theorem task_histInv_new (task_id executor_id core_id : Nat)
    (created_at : TimePair) :
    TaskHistInv (TaskTraceInfo.new task_id executor_id core_id created_at) :=
  ⟨trivial, by simp [TaskTraceInfo.new],
    lastInv_new task_id executor_id core_id created_at⟩

/-- The utilization field of `TaskStats::from_task` does not depend on which
arm of the waiting-statistics match was taken. -/
theorem from_task_cpu (t : TaskTraceInfo) (now : Nat) :
    (TaskStats.from_task t now).cpu_utilization_percent =
      (if t.calc_total_history_duration now / 1000000 > 0 then
        asSecsQ (t.calc_total_history_state_duration .Running now) /
          asSecsQ (t.calc_total_history_duration now) * 100
      else 0) := by
  unfold TaskStats.from_task
  dsimp only
  repeat' split
  all_goals rfl

theorem task_cpu_bounds (t : TaskTraceInfo) (now : Nat) (hInv : TaskHistInv t) :
    0 ≤ (TaskStats.from_task t now).cpu_utilization_percent ∧
    (TaskStats.from_task t now).cpu_utilization_percent ≤ 100 ∧
    (t.calc_total_history_duration now = 0 →
      (TaskStats.from_task t now).cpu_utilization_percent = 0) := by
  rw [from_task_cpu]
  by_cases hpos : t.calc_total_history_duration now / 1000000 > 0
  · rw [if_pos hpos]
    have htot : 0 < t.calc_total_history_duration now := by
      rcases Nat.eq_zero_or_pos (t.calc_total_history_duration now) with h0 | h0
      · rw [h0] at hpos
        simp at hpos
      · exact h0
    have hq : (0:ℚ) < asSecsQ (t.calc_total_history_duration now) := by
      unfold asSecsQ
      have : (0:ℚ) < (t.calc_total_history_duration now : ℚ) := by exact_mod_cast htot
      positivity
    have hrt : asSecsQ (t.calc_total_history_state_duration .Running now) ≤
        asSecsQ (t.calc_total_history_duration now) := by
      unfold asSecsQ
      have hNat := task_running_le_total t now hInv
      have hcast : ((t.calc_total_history_state_duration .Running now : ℚ)) ≤
          ((t.calc_total_history_duration now : ℚ)) := by exact_mod_cast hNat
      exact div_le_div_of_nonneg_right hcast (by norm_num)
    have hr0 := asSecsQ_nonneg (t.calc_total_history_state_duration .Running now)
    refine ⟨by positivity, ?_, fun h0 => ?_⟩
    · have h1 : asSecsQ (t.calc_total_history_state_duration .Running now) /
          asSecsQ (t.calc_total_history_duration now) ≤ 1 := (div_le_one hq).2 hrt
      have := mul_le_mul_of_nonneg_right h1 (by norm_num : (0:ℚ) ≤ 100)
      linarith
    · rw [h0] at hpos
      simp at hpos
  · rw [if_neg hpos]
    exact ⟨le_refl 0, by norm_num, fun _ => rfl⟩

/-- **C7**.  For every executor record and every task record reachable from a
fresh record by an event stream with non-decreasing device timestamps, the
computed `cpu_utilization_percent` lies in `[0, 100]` and equals `0` when the
total tracked time is zero.  (The executor bound needs no reachability: its
active time is accumulated as a sub-sum of its total time.  The task bound
uses the reachable-history invariant: contiguous entries telescope, so
`Running` time never exceeds the tracked total.) -/
theorem c7_utilization_bounds (ex : ExecutorTraceInfo) (exNow : Nat)
    (task_id executor_id core_id : Nat) (created_at : TimePair) (w : Nat)
    (events : List TraceItem) (tNow : Nat)
    (hmono : List.Chain (fun a b => a ≤ b) created_at.uc
      (events.map (fun e => e.time_pair.uc))) :
    (0 ≤ ex.calculate_cpu_utilization exNow ∧
      ex.calculate_cpu_utilization exNow ≤ 100 ∧
      (ex.total_tracked_secs exNow = 0 → ex.calculate_cpu_utilization exNow = 0)) ∧
    (0 ≤ (TaskStats.from_task
        (reachTask task_id executor_id core_id created_at w events)
        tNow).cpu_utilization_percent ∧
      (TaskStats.from_task
        (reachTask task_id executor_id core_id created_at w events)
        tNow).cpu_utilization_percent ≤ 100 ∧
      ((reachTask task_id executor_id core_id created_at w events).calc_total_history_duration
          tNow = 0 →
        (TaskStats.from_task
          (reachTask task_id executor_id core_id created_at w events)
          tNow).cpu_utilization_percent = 0)) := by
  refine ⟨exec_util_bounds ex exNow, ?_⟩
  have hInv : TaskHistInv (reachTask task_id executor_id core_id created_at w events) :=
    task_foldl_histInv w events _
      (task_histInv_new task_id executor_id core_id created_at) hmono
  exact task_cpu_bounds _ tNow hInv

/-- Witness for `c7_utilization_bounds`: a fresh executor record and the
empty event stream. -/
theorem c7_utilization_bounds_witness :
    (0 ≤ c7Executor.calculate_cpu_utilization 5 ∧
      c7Executor.calculate_cpu_utilization 5 ≤ 100 ∧
      (c7Executor.total_tracked_secs 5 = 0 →
        c7Executor.calculate_cpu_utilization 5 = 0)) ∧
    (0 ≤ (TaskStats.from_task (reachTask 42 1 0 ⟨0, 0⟩ 30 []) 7).cpu_utilization_percent ∧
      (TaskStats.from_task (reachTask 42 1 0 ⟨0, 0⟩ 30 []) 7).cpu_utilization_percent ≤ 100 ∧
      ((reachTask 42 1 0 ⟨0, 0⟩ 30 []).calc_total_history_duration 7 = 0 →
        (TaskStats.from_task (reachTask 42 1 0 ⟨0, 0⟩ 30 []) 7).cpu_utilization_percent = 0)) :=
  c7_utilization_bounds c7Executor 5 42 1 0 ⟨0, 0⟩ 30 [] 7 List.Chain.nil

end EmbassyWatchtower
